import Mathlib

/-!
Verification of the wizard / form logic of `static/app.js`
("How Much Is Enough?").

The script manipulates the DOM only; the embedding models the
DOM fragments the script touches:

* a CSS class list is a `List String`; `classList.remove`,
  `classList.add` and `classList.toggle(c, force)` become
  `classRemove`, `classAdd`, `classToggleForce`;
* a step panel (`.step-content`) is a `Panel` (its `data-step`
  attribute and its class list); `showStep`'s panel block
  (app.js lines 20-21) is `showStepPanels`;
* the progress-indicator block (lines 24-29) is `updateProgress`;
* the nav-button block (lines 37-44) is `updateNavButtons`;
* the next / prev click handlers (lines 54-59) are `nextClick`
  and `prevClick`;
* a generated child sub-form (`childFormHTML`, lines 96-173) is a
  `ChildBlock`: the element ids it creates and the initial control
  state encoded in its markup;
* `renderChildren` (lines 175-198) maps a selector value to the
  rebuilt container and the grandchildren-section visibility;
* `bindToggle` (lines 67-75) is modelled over a list of DOM
  elements, with the null-dereference that the early return avoids
  made explicit in an `Except`;
* `formatCurrency` (lines 205-209) uses a faithful `parseInt(-, 10)`
  (whitespace skip, optional sign, longest digit prefix, `NaN` as
  `none`) and `Number.prototype.toLocaleString('en-US')` for
  integers (decimal digits grouped in threes by commas), with exact
  integers in place of JS numbers.
-/

namespace HowMuch

/-! ### CSS class lists -/

/-- `el.classList.remove(c)`: the class token is removed. -/
def classRemove (cs : List String) (c : String) : List String :=
  cs.filter (fun x => x != c)

/-- `el.classList.add(c)`: appended unless already present
(a `DOMTokenList` is a set). -/
def classAdd (cs : List String) (c : String) : List String :=
  if c ∈ cs then cs else cs ++ [c]

/-- `el.classList.toggle(c, force)`: add when `force`, else remove. -/
def classToggleForce (cs : List String) (c : String) (force : Bool) : List String :=
  if force then classAdd cs c else classRemove cs c

/-! ### Step panels (app.js lines 18-21) -/

/-- One `.step-content` element: its `data-step` attribute and classes. -/
structure Panel where
  dataStep : Nat
  classes : List String
deriving DecidableEq

/-- Line 20: `steps.forEach(s => s.classList.remove('active'))`. -/
def clearActive (panels : List Panel) : List Panel :=
  panels.map (fun p => { p with classes := classRemove p.classes "active" })

/-- Line 21: `document.querySelector('.step-content[data-step="n"]')`
returns the first matching panel; `.classList.add('active')` on it.
`none` models the `TypeError` a null `querySelector` result would raise. -/
def activateFirst (n : Nat) : List Panel → Option (List Panel)
  | [] => none
  | p :: ps =>
    if p.dataStep = n then
      some ({ p with classes := classAdd p.classes "active" } :: ps)
    else
      (activateFirst n ps).map (fun rest => p :: rest)

/-- The panel block of `showStep(n)` (lines 20-21). -/
def showStepPanels (n : Nat) (panels : List Panel) : Option (List Panel) :=
  activateFirst n (clearActive panels)

/-! ### Progress indicators (app.js lines 24-29) -/

/-- Body of the `progressSteps.forEach` callback for the indicator with
1-based number `stepNum`: remove both markers, then add `active` when
`stepNum === n`, else `completed` when `stepNum < n`. -/
def progressClasses (n stepNum : Nat) (cs : List String) : List String :=
  if stepNum = n then classAdd (classRemove (classRemove cs "active") "completed") "active"
  else if stepNum < n then classAdd (classRemove (classRemove cs "active") "completed") "completed"
  else classRemove (classRemove cs "active") "completed"

/-- The `forEach` with running 0-based index `k`. -/
def updateProgressFrom (n : Nat) : Nat → List (List String) → List (List String)
  | _, [] => []
  | k, cs :: rest => progressClasses n (k + 1) cs :: updateProgressFrom n (k + 1) rest

/-- The progress-indicator block of `showStep(n)` (lines 24-29). -/
def updateProgress (n : Nat) (ps : List (List String)) : List (List String) :=
  updateProgressFrom n 0 ps

/-! ### Navigation buttons (app.js lines 37-44) -/

/-- The style properties `showStep` assigns to the three buttons. -/
structure NavButtons where
  prevVisibility : String
  nextDisplay : String
  calcDisplay : String
deriving DecidableEq

/-- Lines 37-44 of `showStep(n)`. -/
def updateNavButtons (totalSteps n : Nat) : NavButtons :=
  { prevVisibility := if n = 1 then "hidden" else "visible"
    nextDisplay := if n = totalSteps then "none" else "inline-flex"
    calcDisplay := if n = totalSteps then "inline-flex" else "none" }

/-! ### Next / previous click handlers (app.js lines 54-59) -/

/-- `nextBtn` handler: `if (currentStep < totalSteps) showStep(currentStep + 1)`;
`showStep` sets `currentStep = n` (line 46). -/
def nextClick (totalSteps currentStep : Nat) : Nat :=
  if currentStep < totalSteps then currentStep + 1 else currentStep

/-- `prevBtn` handler: `if (currentStep > 1) showStep(currentStep - 1)`. -/
def prevClick (currentStep : Nat) : Nat :=
  if 1 < currentStep then currentStep - 1 else currentStep

/-- A user click on one of the two navigation buttons. -/
inductive NavClick where
  | nextStep : NavClick
  | prevStep : NavClick
deriving DecidableEq

/-- Effect of one click on `currentStep`. -/
def navStep (totalSteps : Nat) (currentStep : Nat) : NavClick → Nat
  | NavClick.nextStep => nextClick totalSteps currentStep
  | NavClick.prevStep => prevClick currentStep

/-- `currentStep` after a click sequence; `showStep(1)` runs on load (line 62). -/
def applyClicks (totalSteps : Nat) (clicks : List NavClick) : Nat :=
  clicks.foldl (navStep totalSteps) 1

/-! ### Decimal rendering and parsing of JS numbers -/

/-- Numeric value of a decimal digit character. -/
def digitVal (c : Char) : Nat := c.toNat - 48

/-- The decimal digit character for `d < 10`. -/
def digitChar (d : Nat) : Char := Char.ofNat (48 + d)

/-- Value of a most-significant-first decimal digit string. -/
def charsToNat (cs : List Char) : Nat :=
  cs.foldl (fun a c => a * 10 + digitVal c) 0

/-- Fuel-driven decimal rendering, least-significant digit peeled first,
accumulated most-significant-first. -/
def decCharsCore : Nat → Nat → List Char → List Char
  | 0, _, acc => acc
  | fuel + 1, n, acc =>
    if n < 10 then digitChar n :: acc
    else decCharsCore fuel (n / 10) (digitChar (n % 10) :: acc)

/-- Decimal digit characters of `n`, as JS `String(n)` renders a
non-negative integer. -/
def decChars (n : Nat) : List Char := decCharsCore (n + 1) n []

/-- JS string conversion of a non-negative integer (template literal
interpolation of an index). -/
def jsNatToString (n : Nat) : String := ⟨decChars n⟩

/-- Comma grouping of `toLocaleString('en-US')`: on the REVERSED digit
list, a comma after every three digits. -/
def group3 : List Char → List Char
  | a :: b :: c :: d :: rest => a :: b :: c :: ',' :: group3 (d :: rest)
  | cs => cs

/-- `(n).toLocaleString('en-US')` for a non-negative integer `n`. -/
def thousandsGroup (n : Nat) : String :=
  ⟨(group3 (decChars n).reverse).reverse⟩

/-- `Number.prototype.toLocaleString('en-US')` on an integer value. -/
def jsToLocaleString (num : Int) : String :=
  if num < 0 then "-" ++ thousandsGroup num.natAbs else thousandsGroup num.toNat

/-- The whitespace characters `parseInt` skips (ASCII part). -/
def jsWhitespace (c : Char) : Bool :=
  (c == ' ') || (c == '\t') || (c == '\n') || (c == '\r') ||
    (c == Char.ofNat 11) || (c == Char.ofNat 12)

/-- Longest leading run of decimal digits, `none` when empty
(`parseInt` yields `NaN` when no digit follows the sign). -/
def parseLeadingDigits (cs : List Char) : Option Nat :=
  if (cs.takeWhile Char.isDigit).isEmpty then none
  else some (charsToNat (cs.takeWhile Char.isDigit))

/-- JS `parseInt(s, 10)`: skip whitespace, optional sign, longest digit
prefix; `none` is `NaN`. -/
def jsParseInt (s : String) : Option Int :=
  match s.data.dropWhile jsWhitespace with
  | [] => none
  | c :: rest =>
    if c = '-' then (parseLeadingDigits rest).map (fun v => -(v : Int))
    else if c = '+' then (parseLeadingDigits rest).map (fun v => (v : Int))
    else (parseLeadingDigits (c :: rest)).map (fun v => (v : Int))

/-! ### Currency formatting (app.js lines 205-218) -/

/-- `val.replace(/[^0-9]/g, '')` (line 206). -/
def stripNonDigits (s : String) : String := ⟨s.data.filter Char.isDigit⟩

/-- `formatCurrency` (lines 205-209). -/
def formatCurrency (val : String) : String :=
  match jsParseInt (stripNonDigits val) with
  | none => ""
  | some num => jsToLocaleString num

/-- The focus handler of `bindCurrencyFormat` (line 216):
`input.value.replace(/,/g, '')`. -/
def stripCommas (s : String) : String := ⟨s.data.filter (fun c => c != ',')⟩

/-! ### Child sub-forms (app.js lines 96-198) -/

/-- The id scheme of the generated markup:
`child_${index}_<field>` (lines 102-166). -/
def childId (index : Nat) (field : String) : String :=
  "child_" ++ jsNatToString index ++ "_" ++ field

/-- Every element id `childFormHTML(index)` introduces. -/
def childFieldIds (index : Nat) : List String :=
  [childId index "age", childId index "private_school",
   childId index "private_university", childId index "buy_house",
   childId index "house_section", childId index "house_location",
   childId index "house_bedrooms", childId index "annual_expenses"]

/-- One generated child card: its ids and the control state encoded in
the markup of `childFormHTML` (defaults on lines 105, 113, 122, 134,
139, 154, 168). -/
structure ChildBlock where
  index : Nat
  fieldIds : List String
  age : Nat
  privateSchool : Bool
  privateUniversity : Bool
  buyHouseChecked : Bool
  houseSectionClasses : List String
  houseBedrooms : Nat
  annualExpenses : String
deriving DecidableEq

/-- `childFormHTML(index)` (lines 96-173). -/
def childFormHTML (index : Nat) : ChildBlock :=
  { index := index
    fieldIds := childFieldIds index
    age := 5
    privateSchool := true
    privateUniversity := true
    buyHouseChecked := true
    houseSectionClasses := ["conditional-section", "visible"]
    houseBedrooms := 4
    annualExpenses := "300,000" }

/-- The DOM state `renderChildren` rebuilds: the children container and
the grandchildren-section visibility. -/
structure RenderState where
  childrenBlocks : List ChildBlock
  grandchildrenVisible : Bool
deriving DecidableEq

/-- `renderChildren` (lines 175-198): parse the selector value, clear
the container (line 177, regardless of `prevContainer`), run the loop
`for (i = 0; i < n; i++)` (zero iterations when `n` is `NaN` or
negative), and show the grandchildren section iff `n > 0` (false for
`NaN`). -/
def renderChildren (prevContainer : List ChildBlock) (selectValue : String) : RenderState :=
  match jsParseInt selectValue with
  | none =>
    { childrenBlocks := (List.range 0).map childFormHTML
      grandchildrenVisible := false }
  | some k =>
    { childrenBlocks := (List.range k.toNat).map childFormHTML
      grandchildrenVisible := decide (0 < k) }

/-- Whether the house sub-section of child `i` is visible (its
conditional section carries the `visible` class). -/
def childHouseVisible (blocks : List ChildBlock) (i : Nat) : Bool :=
  match blocks[i]? with
  | none => false
  | some b => b.houseSectionClasses.contains "visible"

/-- The change handler bound on `child_i_buy_house` (lines 183-189)
after the user flips the checkbox:
`section.classList.toggle('visible', cb.checked)`. -/
def toggleChildBuyHouse (blocks : List ChildBlock) (i : Nat) : List ChildBlock :=
  match blocks[i]? with
  | none => blocks
  | some b =>
    blocks.set i
      { b with buyHouseChecked := !b.buyHouseChecked
               houseSectionClasses :=
                 classToggleForce b.houseSectionClasses "visible" (!b.buyHouseChecked) }

/-! ### bindToggle (app.js lines 67-75) -/

/-- The slice of a DOM element `bindToggle` touches. -/
structure DomElem where
  elemId : String
  classes : List String
  checked : Bool
deriving DecidableEq

/-- `document.getElementById`. -/
def getElementById (dom : List DomElem) (i : String) : Option DomElem :=
  dom.find? (fun e => e.elemId == i)

/-- Dereference, erroring on `null` as property access would. -/
def deref (x : Option DomElem) : Except String DomElem :=
  match x with
  | none => Except.error "TypeError: cannot read properties of null"
  | some e => Except.ok e

/-- `bindToggle(checkboxId, sectionId)` (lines 67-75): look both
elements up, return silently when either is missing (line 70),
otherwise register the change listener, here the bound id pair. -/
def bindToggle (dom : List DomElem) (checkboxId sectionId : String) :
    Except String (Option (String × String)) :=
  if (getElementById dom checkboxId).isNone ∨ (getElementById dom sectionId).isNone then
    Except.ok none
  else do
    let cb ← deref (getElementById dom checkboxId)
    let sec ← deref (getElementById dom sectionId)
    Except.ok (some (cb.elemId, sec.elemId))

/-- A change event on the bound checkbox: the user sets `checked`, the
listener runs `section.classList.toggle('visible', cb.checked)`
(lines 72-74). -/
def toggleChangeEvent (dom : List DomElem) (checkboxId sectionId : String)
    (newChecked : Bool) : List DomElem :=
  dom.map (fun e =>
    if e.elemId = checkboxId then { e with checked := newChecked }
    else if e.elemId = sectionId then
      { e with classes := classToggleForce e.classes "visible" newChecked }
    else e)

/-! ### Class-list lemmas -/

theorem mem_classRemove (cs : List String) (c x : String) :
    x ∈ classRemove cs c ↔ x ∈ cs ∧ x ≠ c := by
  simp [classRemove, List.mem_filter, bne_iff_ne]

theorem mem_classAdd (cs : List String) (c x : String) :
    x ∈ classAdd cs c ↔ x ∈ cs ∨ x = c := by
  unfold classAdd
  split
  · constructor
    · exact Or.inl
    · rintro (hx | rfl) <;> assumption
  · simp [List.mem_append]

theorem not_mem_classRemove_self (cs : List String) (c : String) :
    c ∉ classRemove cs c := by
  simp [mem_classRemove]

theorem mem_classToggleForce_self (cs : List String) (c : String) (force : Bool) :
    c ∈ classToggleForce cs c force ↔ force = true := by
  cases force <;> simp [classToggleForce, mem_classAdd, not_mem_classRemove_self]

/-! ### Claim C6: bindToggle -/

/-- Claim C6: `bindToggle` never raises an error; it is a no-op returning
silently when either referenced element is absent, and when both exist
the registered change handler leaves the section carrying the `visible`
class exactly when the checkbox is checked. -/
theorem bindToggle_spec (dom : List DomElem) (a b : String) :
    (∃ r, bindToggle dom a b = Except.ok r) ∧
    ((getElementById dom a).isNone ∨ (getElementById dom b).isNone →
      bindToggle dom a b = Except.ok none) ∧
    ((getElementById dom a).isSome → (getElementById dom b).isSome →
      ∃ cb sec, bindToggle dom a b = Except.ok (some (cb, sec))) ∧
    (∀ (ch : Bool) (e : DomElem), a ≠ b → e ∈ toggleChangeEvent dom a b ch →
      e.elemId = b → (("visible" ∈ e.classes) ↔ ch = true)) := by
  have hok : (getElementById dom a).isSome → (getElementById dom b).isSome →
      ∃ cb sec, bindToggle dom a b = Except.ok (some (cb, sec)) := by
    intro ha hb
    cases hcb : getElementById dom a with
    | none => rw [hcb] at ha; exact absurd ha (by simp)
    | some cb =>
      cases hsec : getElementById dom b with
      | none => rw [hsec] at hb; exact absurd hb (by simp)
      | some sec =>
        refine ⟨cb.elemId, sec.elemId, ?_⟩
        unfold bindToggle
        rw [if_neg, hcb, hsec]
        · rfl
        · rintro (h | h)
          · rw [hcb] at h; exact absurd h (by simp)
          · rw [hsec] at h; exact absurd h (by simp)
  refine ⟨?_, ?_, hok, ?_⟩
  · by_cases h : ((getElementById dom a).isNone ∨ (getElementById dom b).isNone)
    · exact ⟨none, by unfold bindToggle; rw [if_pos h]⟩
    · push_neg at h
      have ha : (getElementById dom a).isSome := by
        cases hx : getElementById dom a with
        | none => exact absurd (by rw [hx]; rfl) h.1
        | some y => rfl
      have hb : (getElementById dom b).isSome := by
        cases hx : getElementById dom b with
        | none => exact absurd (by rw [hx]; rfl) h.2
        | some y => rfl
      obtain ⟨cb, sec, hres⟩ := hok ha hb
      exact ⟨some (cb, sec), hres⟩
  · intro h
    unfold bindToggle
    rw [if_pos h]
  · intro ch e hab he heq
    obtain ⟨e0, he0, rfl⟩ := List.mem_map.mp he
    by_cases h1 : e0.elemId = a
    · exfalso
      rw [if_pos h1] at heq
      exact hab (h1 ▸ heq.symm ▸ rfl)
    · by_cases h2 : e0.elemId = b
      · rw [if_neg h1, if_pos h2]
        exact mem_classToggleForce_self e0.classes "visible" ch
      · rw [if_neg h1, if_neg h2] at heq
        exact absurd heq h2

/-- Witness for C6 at concrete inputs: a missing section id is a silent
no-op, and a fired change with `checked = true` leaves the section
visible. -/
theorem bindToggle_spec_witness :
    bindToggle [DomElem.mk "a" [] false] "a" "b" = Except.ok none ∧
    (("visible" ∈ (DomElem.mk "b" ["visible"] false).classes) ↔ true = true) := by
  constructor
  · exact (bindToggle_spec [DomElem.mk "a" [] false] "a" "b").2.1 (Or.inr (by decide))
  · exact (bindToggle_spec [DomElem.mk "a" [] false, DomElem.mk "b" [] false] "a" "b").2.2.2
      true (DomElem.mk "b" ["visible"] false) (by decide) (by decide) rfl

/-! ### Claim C7: next / previous clicks -/

theorem navFold_bounds (t : Nat) (clicks : List NavClick) :
    ∀ cur, 1 ≤ cur → cur ≤ t →
      1 ≤ clicks.foldl (navStep t) cur ∧ clicks.foldl (navStep t) cur ≤ t := by
  induction clicks with
  | nil => intro cur h1 h2; exact ⟨h1, h2⟩
  | cons c cs ih =>
    intro cur h1 h2
    simp only [List.foldl_cons]
    apply ih
    · cases c <;> simp only [navStep, nextClick, prevClick] <;> split <;> omega
    · cases c <;> simp only [navStep, nextClick, prevClick] <;> split <;> omega

/-- Claim C7: the next handler advances by exactly one below the last
step and is a no-op at it; the previous handler retreats by exactly one
above step 1 and is a no-op at it; hence any click sequence starting at
step 1 keeps the current step within `[1, totalSteps]`. -/
theorem navClicks_spec :
    (∀ t cur, cur < t → nextClick t cur = cur + 1) ∧
    (∀ t, nextClick t t = t) ∧
    (∀ cur, 1 < cur → prevClick cur = cur - 1) ∧
    prevClick 1 = 1 ∧
    (∀ t clicks, 1 ≤ t →
      1 ≤ applyClicks t clicks ∧ applyClicks t clicks ≤ t) := by
  refine ⟨?_, ?_, ?_, rfl, ?_⟩
  · intro t cur h; simp [nextClick, h]
  · intro t; simp [nextClick]
  · intro cur h; simp [prevClick, h]
  · intro t clicks ht
    exact navFold_bounds t clicks 1 le_rfl ht

/-- Witness for C7 at concrete inputs. -/
theorem navClicks_spec_witness :
    nextClick 5 2 = 3 ∧ prevClick 3 = 2 ∧
    (1 ≤ applyClicks 5 [NavClick.nextStep, NavClick.prevStep] ∧
      applyClicks 5 [NavClick.nextStep, NavClick.prevStep] ≤ 5) :=
  ⟨navClicks_spec.1 5 2 (by decide), navClicks_spec.2.2.1 3 (by decide),
    navClicks_spec.2.2.2.2 5 [NavClick.nextStep, NavClick.prevStep] (by decide)⟩

/-! ### Claim C8: navigation buttons -/

/-- Claim C8: `showStep(n)` hides the previous button exactly when
`n = 1`, and shows the calculate control while hiding next exactly when
`n = totalSteps`, doing the inverse for every smaller index. -/
theorem updateNavButtons_spec (totalSteps n : Nat) :
    ((updateNavButtons totalSteps n).prevVisibility = "hidden" ↔ n = 1) ∧
    ((updateNavButtons totalSteps n).prevVisibility = "visible" ↔ n ≠ 1) ∧
    (((updateNavButtons totalSteps n).nextDisplay = "none" ∧
      (updateNavButtons totalSteps n).calcDisplay = "inline-flex") ↔ n = totalSteps) ∧
    (n < totalSteps →
      (updateNavButtons totalSteps n).nextDisplay = "inline-flex" ∧
      (updateNavButtons totalSteps n).calcDisplay = "none") := by
  unfold updateNavButtons
  by_cases h1 : n = 1 <;> by_cases h2 : n = totalSteps <;>
    simp [h1, h2] <;> omega

/-- Witness for C8 at concrete inputs. -/
theorem updateNavButtons_spec_witness :
    (updateNavButtons 5 2).nextDisplay = "inline-flex" ∧
    (updateNavButtons 5 2).calcDisplay = "none" :=
  (updateNavButtons_spec 5 2).2.2.2 (by decide)

/-! ### Decimal-rendering lemmas -/

theorem digitVal_digitChar (d : Nat) (h : d < 10) : digitVal (digitChar d) = d := by
  interval_cases d <;> decide

theorem isDigit_digitChar (d : Nat) (h : d < 10) : (digitChar d).isDigit = true := by
  interval_cases d <;> decide

theorem comma_not_digit : Char.isDigit ',' = false := rfl

theorem decCharsCore_foldl (fuel : Nat) :
    ∀ (n : Nat) (acc : List Char), n < 10 ^ fuel →
      (decCharsCore fuel n acc).foldl (fun a c => a * 10 + digitVal c) 0 =
        acc.foldl (fun a c => a * 10 + digitVal c) n := by
  induction fuel with
  | zero =>
    intro n acc h
    interval_cases n
    rfl
  | succ fuel ih =>
    intro n acc h
    by_cases hn : n < 10
    · simp only [decCharsCore, if_pos hn, List.foldl_cons]
      rw [Nat.zero_mul, Nat.zero_add, digitVal_digitChar n hn]
    · simp only [decCharsCore, if_neg hn]
      rw [ih (n / 10) _ (by
        rw [Nat.pow_succ, Nat.mul_comm] at h
        exact Nat.div_lt_of_lt_mul h)]
      simp only [List.foldl_cons]
      rw [digitVal_digitChar (n % 10) (Nat.mod_lt n (by omega)),
        Nat.mul_comm, Nat.div_add_mod]

theorem charsToNat_decChars (n : Nat) : charsToNat (decChars n) = n := by
  have hb : n < 10 ^ (n + 1) :=
    Nat.lt_of_lt_of_le (Nat.lt_pow_self (by norm_num) n)
      (Nat.pow_le_pow_right (by norm_num) (Nat.le_succ n))
  have := decCharsCore_foldl (n + 1) n [] hb
  simpa [charsToNat, decChars] using this

theorem decCharsCore_digits (fuel : Nat) :
    ∀ (n : Nat) (acc : List Char), (∀ c ∈ acc, c.isDigit = true) →
      ∀ c ∈ decCharsCore fuel n acc, c.isDigit = true := by
  induction fuel with
  | zero => intro n acc hacc; exact hacc
  | succ fuel ih =>
    intro n acc hacc c hc
    by_cases hn : n < 10
    · simp only [decCharsCore, if_pos hn, List.mem_cons] at hc
      rcases hc with rfl | hc
      · exact isDigit_digitChar n hn
      · exact hacc c hc
    · simp only [decCharsCore, if_neg hn] at hc
      refine ih (n / 10) _ ?_ c hc
      intro x hx
      rcases List.mem_cons.mp hx with rfl | hx
      · exact isDigit_digitChar (n % 10) (Nat.mod_lt n (by omega))
      · exact hacc x hx

theorem decChars_digits (n : Nat) : ∀ c ∈ decChars n, c.isDigit = true :=
  decCharsCore_digits (n + 1) n [] (by intro c hc; cases hc)

theorem decCharsCore_length (fuel : Nat) :
    ∀ (n : Nat) (acc : List Char), 0 < fuel →
      acc.length < (decCharsCore fuel n acc).length := by
  induction fuel with
  | zero => intro n acc h; exact absurd h (by omega)
  | succ fuel ih =>
    intro n acc _
    by_cases hn : n < 10
    · simp [decCharsCore, if_pos hn]
    · simp only [decCharsCore, if_neg hn]
      rcases Nat.eq_zero_or_pos fuel with rfl | hf
      · simp [decCharsCore]
      · exact Nat.lt_trans (by simp) (ih (n / 10) _ hf)

theorem decChars_ne_nil (n : Nat) : decChars n ≠ [] := by
  intro h
  have hl := decCharsCore_length (n + 1) n [] (Nat.succ_pos n)
  rw [show decCharsCore (n + 1) n [] = decChars n from rfl, h] at hl
  simp at hl

theorem decChars_inj {a b : Nat} (h : decChars a = decChars b) : a = b := by
  rw [← charsToNat_decChars a, ← charsToNat_decChars b, h]

/-! ### parseInt lemmas -/

theorem takeWhile_eq_self_of_all {p : Char → Bool} :
    ∀ {L : List Char}, (∀ c ∈ L, p c = true) → L.takeWhile p = L := by
  intro L
  induction L with
  | nil => intro _; rfl
  | cons c rest ih =>
    intro h
    rw [List.takeWhile_cons_of_pos (h c (by simp))]
    rw [ih (fun x hx => h x (by simp [hx]))]

theorem ws_not_digit {c : Char} (h : jsWhitespace c = true) : c.isDigit = false := by
  simp only [jsWhitespace, Bool.or_eq_true, beq_iff_eq] at h
  rcases h with ((((rfl | rfl) | rfl) | rfl) | rfl) | rfl <;> rfl

theorem digit_not_ws {c : Char} (h : c.isDigit = true) : jsWhitespace c = false := by
  cases hw : jsWhitespace c
  · rfl
  · rw [ws_not_digit hw] at h
    cases h

theorem parseLeadingDigits_of_digits (L : List Char) (hne : L ≠ [])
    (hd : ∀ c ∈ L, c.isDigit = true) :
    parseLeadingDigits L = some (charsToNat L) := by
  unfold parseLeadingDigits
  rw [takeWhile_eq_self_of_all hd]
  obtain ⟨c, rest, rfl⟩ := List.exists_cons_of_ne_nil hne
  rfl

theorem jsParseInt_digits (L : List Char) (hne : L ≠ [])
    (hd : ∀ c ∈ L, c.isDigit = true) :
    jsParseInt ⟨L⟩ = some ((charsToNat L : Int)) := by
  obtain ⟨c, rest, rfl⟩ := List.exists_cons_of_ne_nil hne
  have hc : c.isDigit = true := hd c (by simp)
  have hdrop : (c :: rest).dropWhile jsWhitespace = c :: rest :=
    List.dropWhile_cons_of_neg (by simp [digit_not_ws hc])
  have hc1 : c ≠ '-' := by rintro rfl; exact absurd hc (by decide)
  have hc2 : c ≠ '+' := by rintro rfl; exact absurd hc (by decide)
  simp only [jsParseInt, hdrop]
  rw [if_neg hc1, if_neg hc2, parseLeadingDigits_of_digits (c :: rest) (by simp) hd]
  rfl

/-! ### formatCurrency lemmas -/

theorem stripNonDigits_digits (s : String) :
    ∀ c ∈ (stripNonDigits s).data, c.isDigit = true := by
  intro c hc
  exact (List.mem_filter.mp hc).2

theorem formatCurrency_of_empty (s : String) (h : (stripNonDigits s).data = []) :
    formatCurrency s = "" := by
  unfold formatCurrency jsParseInt
  rw [h]
  rfl

theorem formatCurrency_of_nonempty (s : String) (h : (stripNonDigits s).data ≠ []) :
    formatCurrency s = jsToLocaleString ((charsToNat (stripNonDigits s).data : Int)) := by
  unfold formatCurrency
  rw [show jsParseInt (stripNonDigits s) =
    some ((charsToNat (stripNonDigits s).data : Int)) from
    jsParseInt_digits (stripNonDigits s).data h (stripNonDigits_digits s)]

theorem jsToLocaleString_natCast (n : Nat) :
    jsToLocaleString (n : Int) = thousandsGroup n := by
  unfold jsToLocaleString
  rw [if_neg (by exact Int.not_lt.mpr (Int.natCast_nonneg n)), Int.toNat_natCast]

theorem group3_filter :
    ∀ cs : List Char, (group3 cs).filter Char.isDigit = cs.filter Char.isDigit := by
  intro cs
  induction cs using group3.induct with
  | case1 a b c d rest ih =>
    simp [group3, List.filter_cons, comma_not_digit, ih]
  | case2 cs h =>
    rw [group3.eq_def]
    split
    · rename_i a b c d rest
      exact (h a b c d rest rfl).elim
    · rfl

theorem stripNonDigits_thousandsGroup (n : Nat) :
    (stripNonDigits (thousandsGroup n)).data = decChars n := by
  show ((group3 (decChars n).reverse).reverse).filter Char.isDigit = decChars n
  rw [List.filter_reverse, group3_filter, List.filter_reverse,
    List.reverse_reverse, List.filter_eq_self.mpr (decChars_digits n)]

theorem formatCurrency_thousandsGroup (n : Nat) :
    formatCurrency (thousandsGroup n) = thousandsGroup n := by
  have hdata := stripNonDigits_thousandsGroup n
  have hne : (stripNonDigits (thousandsGroup n)).data ≠ [] := by
    rw [hdata]; exact decChars_ne_nil n
  rw [formatCurrency_of_nonempty _ hne, hdata, charsToNat_decChars,
    jsToLocaleString_natCast]

theorem formatCurrency_cases (s : String) :
    formatCurrency s = "" ∨ ∃ n : Nat, formatCurrency s = thousandsGroup n := by
  by_cases h : (stripNonDigits s).data = []
  · exact Or.inl (formatCurrency_of_empty s h)
  · refine Or.inr ⟨charsToNat (stripNonDigits s).data, ?_⟩
    rw [formatCurrency_of_nonempty s h, jsToLocaleString_natCast]

theorem stripNonDigits_stripCommas (s : String) :
    stripNonDigits (stripCommas s) = stripNonDigits s := by
  apply congrArg String.mk
  show (s.data.filter (fun c => c != ',')).filter Char.isDigit = s.data.filter Char.isDigit
  rw [List.filter_filter]
  apply List.filter_congr
  intro a _
  cases hda : a.isDigit
  · simp
  · simp only [Bool.true_and]
    rw [bne_iff_ne]
    rintro rfl
    exact absurd hda (by decide)

theorem formatCurrency_stripCommas (s : String) :
    formatCurrency (stripCommas s) = formatCurrency s := by
  unfold formatCurrency
  rw [stripNonDigits_stripCommas]

theorem formatCurrency_idem (s : String) :
    formatCurrency (formatCurrency s) = formatCurrency s := by
  rcases formatCurrency_cases s with h | ⟨n, h⟩
  · rw [h]
    exact formatCurrency_of_empty "" rfl
  · rw [h]
    exact formatCurrency_thousandsGroup n

/-! ### Claim C4: formatCurrency behaviour -/

/-- Claim C4: `formatCurrency` strips every non-digit character and
parses the remainder; when nothing is left it returns the empty string,
otherwise the parsed integer rendered with thousands separators; in
particular on `"abcd"`, `"300000"` and `"1234567"`. -/
theorem formatCurrency_spec :
    (∀ s : String, (stripNonDigits s).data = [] → formatCurrency s = "") ∧
    (∀ s : String, (stripNonDigits s).data ≠ [] →
      formatCurrency s = jsToLocaleString ((charsToNat (stripNonDigits s).data : Int))) ∧
    formatCurrency "abcd" = "" ∧
    formatCurrency "300000" = "300,000" ∧
    formatCurrency "1234567" = "1,234,567" :=
  ⟨formatCurrency_of_empty, formatCurrency_of_nonempty, by decide, by decide, by decide⟩

/-- Witness for C4: the non-empty branch applied at `"x9y"`. -/
theorem formatCurrency_spec_witness :
    formatCurrency "x9y" = jsToLocaleString ((charsToNat (stripNonDigits "x9y").data : Int)) :=
  formatCurrency_spec.2.1 "x9y" (by decide)

/-! ### Claim C5: idempotence / focus-blur round trip -/

/-- Claim C5: formatting is insensitive to the commas the focus handler
strips, `formatCurrency` is idempotent, a focus-then-blur round trip of
a formatted value returns it unchanged, and in particular a field
showing `"300,000"` shows `"300,000"` again after the round trip. -/
theorem formatCurrency_roundTrip_spec :
    (∀ s : String, formatCurrency (stripCommas s) = formatCurrency s) ∧
    (∀ s : String, formatCurrency (formatCurrency s) = formatCurrency s) ∧
    (∀ s : String, formatCurrency (stripCommas (formatCurrency s)) = formatCurrency s) ∧
    formatCurrency (stripCommas "300,000") = "300,000" := by
  refine ⟨formatCurrency_stripCommas, formatCurrency_idem, ?_, by decide⟩
  intro s
  rw [formatCurrency_stripCommas, formatCurrency_idem]

/-! ### Child-id scheme lemmas -/

theorem digit_bne_underscore {c : Char} (h : c.isDigit = true) : (c != '_') = true := by
  rw [bne_iff_ne]
  rintro rfl
  exact absurd h (by decide)

theorem takeWhile_decChars_front (n : Nat) (s : List Char) :
    (decChars n ++ '_' :: s).takeWhile (fun c => c != '_') = decChars n := by
  rw [List.takeWhile_append_of_pos (fun c hc => digit_bne_underscore (decChars_digits n c hc))]
  rw [List.takeWhile_cons_of_neg (by simp)]
  simp

theorem childId_inj {i j : Nat} {f g : String} (h : childId i f = childId j g) : i = j := by
  have hd := congrArg String.data h
  simp only [childId, String.data_append, List.append_assoc] at hd
  have hd2 := List.append_cancel_left hd
  simp only [List.singleton_append] at hd2
  rw [show (jsNatToString i).data = decChars i from rfl,
    show (jsNatToString j).data = decChars j from rfl] at hd2
  have h3 := congrArg (List.takeWhile (fun c => c != '_')) hd2
  rw [takeWhile_decChars_front, takeWhile_decChars_front] at h3
  exact decChars_inj h3

theorem mem_childFieldIds {x : String} {i : Nat} (h : x ∈ childFieldIds i) :
    ∃ f, x = childId i f := by
  simp only [childFieldIds, List.mem_cons, List.not_mem_nil, or_false] at h
  rcases h with rfl | rfl | rfl | rfl | rfl | rfl | rfl | rfl <;> exact ⟨_, rfl⟩

theorem childFieldIds_disjoint {i j : Nat} (hij : i ≠ j) {x : String}
    (hx : x ∈ childFieldIds i) (hy : x ∈ childFieldIds j) : False := by
  obtain ⟨f, rfl⟩ := mem_childFieldIds hx
  obtain ⟨g, hg⟩ := mem_childFieldIds hy
  exact hij (childId_inj hg)

/-! ### renderChildren lemmas -/

theorem renderChildren_of_natCast (v : String) (N : Nat) (prev : List ChildBlock)
    (h : jsParseInt v = some (N : Int)) :
    renderChildren prev v =
      { childrenBlocks := (List.range N).map childFormHTML
        grandchildrenVisible := decide (0 < N) } := by
  unfold renderChildren
  rw [h]
  simp [Int.toNat_natCast, decide_eq_decide, Int.natCast_pos]

theorem childHouseVisible_of_getElem {blocks : List ChildBlock} {i : Nat} {b : ChildBlock}
    (h : blocks[i]? = some b) :
    childHouseVisible blocks i = b.houseSectionClasses.contains "visible" := by
  unfold childHouseVisible
  rw [h]

theorem toggleChildBuyHouse_of_getElem {blocks : List ChildBlock} {i : Nat} {b : ChildBlock}
    (h : blocks[i]? = some b) :
    toggleChildBuyHouse blocks i = blocks.set i
      { b with buyHouseChecked := !b.buyHouseChecked
               houseSectionClasses :=
                 classToggleForce b.houseSectionClasses "visible" (!b.buyHouseChecked) } := by
  unfold toggleChildBuyHouse
  rw [h]

/-! ### Claim C3: renderChildren with a parsed count -/

/-- Claim C3: for a selector value parsing to the non-negative count N,
`renderChildren` is insensitive to the previous container content (full
unconditional rebuild), produces exactly N child blocks, the i-th being
the block generated for index i, whose field identifiers all follow the
`child_<i>_*` scheme, distinct blocks never sharing an identifier; the
grandchildren section is shown iff N > 0. -/
theorem renderChildren_spec (v : String) (N : Nat)
    (h : jsParseInt v = some (N : Int)) :
    (∀ prev prev', renderChildren prev v = renderChildren prev' v) ∧
    (∀ prev, (renderChildren prev v).childrenBlocks.length = N) ∧
    (∀ prev i, i < N →
      (renderChildren prev v).childrenBlocks[i]? = some (childFormHTML i)) ∧
    (∀ i x, x ∈ (childFormHTML i).fieldIds →
      ∃ f, x = "child_" ++ jsNatToString i ++ "_" ++ f) ∧
    (∀ i j x, i ≠ j → x ∈ (childFormHTML i).fieldIds →
      x ∉ (childFormHTML j).fieldIds) ∧
    (∀ prev, ((renderChildren prev v).grandchildrenVisible = true ↔ 0 < N)) := by
  refine ⟨fun prev prev' => rfl, ?_, ?_, ?_, ?_, ?_⟩
  · intro prev
    rw [renderChildren_of_natCast v N prev h]
    simp
  · intro prev i hi
    rw [renderChildren_of_natCast v N prev h]
    simp [List.getElem?_range hi]
  · intro i x hx
    obtain ⟨f, rfl⟩ := mem_childFieldIds hx
    exact ⟨f, rfl⟩
  · intro i j x hij hx hy
    exact childFieldIds_disjoint hij hx hy
  · intro prev
    rw [renderChildren_of_natCast v N prev h]
    simp

/-- Witness for C3 at the concrete selector value `"3"`. -/
theorem renderChildren_spec_witness :
    (renderChildren [] "3").childrenBlocks.length = 3 ∧
    (renderChildren [] "3").childrenBlocks[1]? = some (childFormHTML 1) :=
  ⟨(renderChildren_spec "3" 3 (by decide)).2.1 [],
    (renderChildren_spec "3" 3 (by decide)).2.2.1 [] 1 (by decide)⟩

/-! ### Claim C10: unparseable count -/

/-- Claim C10: a selector value that does not parse at all still clears
the container, generates zero blocks, hides the grandchildren section,
and behaves exactly like count 0. -/
theorem renderChildren_nan_spec (v : String) (h : jsParseInt v = none) :
    (∀ prev, renderChildren prev v =
      { childrenBlocks := [], grandchildrenVisible := false }) ∧
    (∀ prev prev', renderChildren prev v = renderChildren prev' "0") := by
  have h0 : ∀ prev, renderChildren prev v =
      { childrenBlocks := [], grandchildrenVisible := false } := by
    intro prev
    unfold renderChildren
    rw [h]
    rfl
  refine ⟨h0, ?_⟩
  intro prev prev'
  rw [h0 prev]
  rfl

/-- Witness for C10 at the concrete selector value `"abc"`. -/
theorem renderChildren_nan_spec_witness :
    renderChildren [childFormHTML 0] "abc" =
      { childrenBlocks := [], grandchildrenVisible := false } :=
  (renderChildren_nan_spec "abc" (by decide)).1 [childFormHTML 0]

/-! ### Claim C9: per-child buy-house toggle -/

/-- Claim C9: with N ≥ 2 rendered children, toggling child i's buy-house
checkbox off hides exactly that child's house sub-section, toggling it
back on shows it again, and in both states every other child block is
unchanged. -/
theorem toggleChildBuyHouse_spec (v : String) (N i : Nat) (prev : List ChildBlock)
    (h : jsParseInt v = some (N : Int)) (hN : 2 ≤ N) (hi : i < N) :
    childHouseVisible ((renderChildren prev v).childrenBlocks) i = true ∧
    childHouseVisible
      (toggleChildBuyHouse ((renderChildren prev v).childrenBlocks) i) i = false ∧
    childHouseVisible
      (toggleChildBuyHouse
        (toggleChildBuyHouse ((renderChildren prev v).childrenBlocks) i) i) i = true ∧
    (∀ j, j ≠ i →
      (toggleChildBuyHouse ((renderChildren prev v).childrenBlocks) i)[j]? =
        ((renderChildren prev v).childrenBlocks)[j]?) ∧
    (∀ j, j ≠ i →
      (toggleChildBuyHouse
        (toggleChildBuyHouse ((renderChildren prev v).childrenBlocks) i) i)[j]? =
        ((renderChildren prev v).childrenBlocks)[j]?) := by
  have hB : (renderChildren prev v).childrenBlocks = (List.range N).map childFormHTML := by
    rw [renderChildren_of_natCast v N prev h]
  have hBi : ((List.range N).map childFormHTML)[i]? = some (childFormHTML i) := by
    simp [List.getElem?_range hi]
  have hilen : i < ((List.range N).map childFormHTML).length := by
    simp [hi]
  have h1 : toggleChildBuyHouse ((List.range N).map childFormHTML) i =
      ((List.range N).map childFormHTML).set i
        { childFormHTML i with buyHouseChecked := false
                               houseSectionClasses := ["conditional-section"] } :=
    toggleChildBuyHouse_of_getElem hBi
  have hset1 : (((List.range N).map childFormHTML).set i
      { childFormHTML i with buyHouseChecked := false
                             houseSectionClasses := ["conditional-section"] })[i]? =
      some { childFormHTML i with buyHouseChecked := false
                                  houseSectionClasses := ["conditional-section"] } :=
    List.getElem?_set_self hilen
  have h2 : toggleChildBuyHouse
      (((List.range N).map childFormHTML).set i
        { childFormHTML i with buyHouseChecked := false
                               houseSectionClasses := ["conditional-section"] }) i =
      (((List.range N).map childFormHTML).set i
        { childFormHTML i with buyHouseChecked := false
                               houseSectionClasses := ["conditional-section"] }).set i
        { childFormHTML i with buyHouseChecked := true
                               houseSectionClasses := ["conditional-section", "visible"] } :=
    toggleChildBuyHouse_of_getElem hset1
  refine ⟨?_, ?_, ?_, ?_, ?_⟩
  · rw [hB, childHouseVisible_of_getElem hBi]
    rfl
  · rw [hB, h1, childHouseVisible_of_getElem hset1]
    rfl
  · rw [hB, h1, h2, childHouseVisible_of_getElem
      (List.getElem?_set_self (by simpa using hilen))]
    rfl
  · intro j hj
    rw [hB, h1, List.getElem?_set_ne (fun he => hj he.symm)]
  · intro j hj
    rw [hB, h1, h2, List.getElem?_set_ne (fun he => hj he.symm),
      List.getElem?_set_ne (fun he => hj he.symm)]

/-- Witness for C9 at two rendered children, toggling child 0. -/
theorem toggleChildBuyHouse_spec_witness :
    childHouseVisible
      (toggleChildBuyHouse ((renderChildren [] "2").childrenBlocks) 0) 0 = false ∧
    (toggleChildBuyHouse ((renderChildren [] "2").childrenBlocks) 0)[1]? =
      ((renderChildren [] "2").childrenBlocks)[1]? := by
  have hs := toggleChildBuyHouse_spec "2" 2 0 [] (by decide) (by decide) (by decide)
  exact ⟨hs.2.1, hs.2.2.2.1 1 (by decide)⟩

/-! ### Step-panel lemmas -/

theorem activateFirst_spec :
    ∀ (ps : List Panel) (s L n : Nat),
      ps.map (fun p => p.dataStep) = List.range' s L → s ≤ n → n < s + L →
      (∀ p ∈ ps, "active" ∉ p.classes) →
      ∃ ps', activateFirst n ps = some ps' ∧
        ps'.countP (fun p => decide ("active" ∈ p.classes)) = 1 ∧
        (∀ p ∈ ps', "active" ∈ p.classes → p.dataStep = n) ∧
        ps'.map (fun p => p.dataStep) = List.range' s L := by
  intro ps
  induction ps with
  | nil =>
    intro s L n hmap hs hL _
    rw [show ([] : List Panel).map (fun p => p.dataStep) = [] from rfl] at hmap
    have : L = 0 := (List.range'_eq_nil).mp hmap.symm
    omega
  | cons p tail ih =>
    intro s L n hmap hs hL hina
    cases L with
    | zero => simp at hmap
    | succ k =>
      rw [List.range'_succ] at hmap
      simp only [List.map_cons, List.cons.injEq] at hmap
      obtain ⟨hps, htail⟩ := hmap
      by_cases hpn : p.dataStep = n
      · refine ⟨{ p with classes := classAdd p.classes "active" } :: tail, ?_, ?_, ?_, ?_⟩
        · unfold activateFirst
          rw [if_pos hpn]
        · rw [List.countP_cons]
          rw [List.countP_eq_zero.mpr
            (fun q hq => by simpa using hina q (List.mem_cons_of_mem p hq))]
          simp [mem_classAdd]
        · intro q hq hact
          rcases List.mem_cons.mp hq with rfl | hq
          · exact hpn
          · exact absurd hact (hina q (List.mem_cons_of_mem p hq))
        · rw [List.range'_succ]
          simp [hps, htail]
      · have hs' : s + 1 ≤ n := by omega
        have hL' : n < (s + 1) + k := by omega
        obtain ⟨ps', heq, hcount, hall, hmap'⟩ :=
          ih (s + 1) k n htail hs' hL'
            (fun q hq => hina q (List.mem_cons_of_mem p hq))
        refine ⟨p :: ps', ?_, ?_, ?_, ?_⟩
        · unfold activateFirst
          rw [if_neg hpn, heq]
          rfl
        · rw [List.countP_cons]
          have : decide ("active" ∈ p.classes) = false := by
            simpa using hina p (List.mem_cons_self p tail)
          rw [this]
          simpa using hcount
        · intro q hq hact
          rcases List.mem_cons.mp hq with rfl | hq
          · exact absurd hact (hina q (List.mem_cons_self q tail))
          · exact hall q hq hact
        · rw [List.range'_succ]
          simp [hps, hmap']

/-! ### Claim C1: exactly one active panel -/

/-- Claim C1: when the step panels carry the data-step indices
`1 .. totalSteps` in document order, `showStep(n)` for `n` in
`[1, totalSteps]` succeeds and leaves exactly one panel carrying the
`active` class, namely one whose data-step index equals `n`. -/
theorem showStepPanels_spec (L n : Nat) (panels : List Panel)
    (hsteps : panels.map (fun p => p.dataStep) = List.range' 1 L)
    (h1 : 1 ≤ n) (h2 : n ≤ L) :
    ∃ panels', showStepPanels n panels = some panels' ∧
      panels'.countP (fun p => decide ("active" ∈ p.classes)) = 1 ∧
      (∀ p ∈ panels', "active" ∈ p.classes → p.dataStep = n) := by
  have hmap : (clearActive panels).map (fun p => p.dataStep) = List.range' 1 L := by
    rw [show (clearActive panels).map (fun p => p.dataStep) =
      panels.map (fun p => p.dataStep) from by
        simp [clearActive, List.map_map, Function.comp]]
    exact hsteps
  have hina : ∀ p ∈ clearActive panels, "active" ∉ p.classes := by
    intro p hp
    obtain ⟨q, _, rfl⟩ := List.mem_map.mp hp
    exact not_mem_classRemove_self q.classes "active"
  obtain ⟨ps', heq, hcount, hall, _⟩ :=
    activateFirst_spec (clearActive panels) 1 L n hmap h1 (by omega) hina
  exact ⟨ps', heq, hcount, hall⟩

/-- Witness for C1 on a concrete three-panel wizard, showing step 2. -/
theorem showStepPanels_spec_witness :
    ((showStepPanels 2
        [Panel.mk 1 ["step-content", "active"], Panel.mk 2 ["step-content"],
          Panel.mk 3 []]).getD []).countP
      (fun p => decide ("active" ∈ p.classes)) = 1 := by
  obtain ⟨ps', heq, hcount, _⟩ := showStepPanels_spec 3 2
    [Panel.mk 1 ["step-content", "active"], Panel.mk 2 ["step-content"], Panel.mk 3 []]
    (by decide) (by decide) (by decide)
  rw [heq]
  simpa using hcount

/-! ### Progress-indicator lemmas -/

theorem updateProgressFrom_getD (n : Nat) :
    ∀ (rest : List (List String)) (k i : Nat), i < rest.length →
      (updateProgressFrom n k rest).getD i [] =
        progressClasses n (k + i + 1) (rest.getD i []) := by
  intro rest
  induction rest with
  | nil => intro k i h; simp at h
  | cons cs tail ih =>
    intro k i h
    cases i with
    | zero => rfl
    | succ i' =>
      show (updateProgressFrom n (k + 1) tail).getD i' [] =
        progressClasses n (k + (i' + 1) + 1) (tail.getD i' [])
      rw [ih (k + 1) i' (by simpa using h)]
      have : k + 1 + i' + 1 = k + (i' + 1) + 1 := by omega
      rw [this]

theorem progressClasses_mem (n s : Nat) (cs : List String) :
    (("active" ∈ progressClasses n s cs) ↔ s = n) ∧
    (("completed" ∈ progressClasses n s cs) ↔ s < n) := by
  have hac : ("active" : String) ≠ "completed" := by decide
  have hca : ("completed" : String) ≠ "active" := by decide
  unfold progressClasses
  by_cases h1 : s = n
  · rw [if_pos h1]
    constructor
    · simp [mem_classAdd, h1]
    · simp [mem_classAdd, mem_classRemove, hca]
      omega
  · rw [if_neg h1]
    by_cases h2 : s < n
    · rw [if_pos h2]
      constructor
      · simp [mem_classAdd, mem_classRemove, hac, h1]
      · simp [mem_classAdd, h2]
    · rw [if_neg h2]
      constructor
      · simp [mem_classRemove, h1]
      · simp [mem_classRemove, h2]

/-! ### Claim C2: progress indicator marking -/

/-- Claim C2: after `showStep(n)` the progress indicator with 1-based
index `i` carries `completed` exactly when `i < n`, carries `active`
exactly when `i = n`, and never carries both at once (so it carries
neither marker when `i > n`). -/
theorem updateProgress_spec (n : Nat) (ps : List (List String)) (i : Nat)
    (h : i < ps.length) :
    (("completed" ∈ (updateProgress n ps).getD i []) ↔ i + 1 < n) ∧
    (("active" ∈ (updateProgress n ps).getD i []) ↔ i + 1 = n) ∧
    ¬(("active" ∈ (updateProgress n ps).getD i []) ∧
      ("completed" ∈ (updateProgress n ps).getD i [])) := by
  have hg := updateProgressFrom_getD n ps 0 i h
  rw [show (0 : Nat) + i + 1 = i + 1 from by omega] at hg
  unfold updateProgress
  rw [hg]
  have hm := progressClasses_mem n (i + 1) (ps.getD i [])
  refine ⟨hm.2, hm.1, ?_⟩
  rintro ⟨ha, hc⟩
  rw [hm.1] at ha
  rw [hm.2] at hc
  omega

/-- Witness for C2 on three concrete indicators with `showStep(2)`. -/
theorem updateProgress_spec_witness :
    (("completed" ∈ (updateProgress 2
        [["progress-step"], ["progress-step", "active"], ["progress-step"]]).getD 0 []) ↔
      0 + 1 < 2) ∧
    (("active" ∈ (updateProgress 2
        [["progress-step"], ["progress-step", "active"], ["progress-step"]]).getD 0 []) ↔
      0 + 1 = 2) ∧
    ¬(("active" ∈ (updateProgress 2
        [["progress-step"], ["progress-step", "active"], ["progress-step"]]).getD 0 []) ∧
      ("completed" ∈ (updateProgress 2
        [["progress-step"], ["progress-step", "active"], ["progress-step"]]).getD 0 [])) :=
  updateProgress_spec 2 [["progress-step"], ["progress-step", "active"], ["progress-step"]]
    0 (by decide)

end HowMuch
